import Mathlib

/-!
Verification development for the locust-sql performance-analysis scripts.

The Python sources are shallowly embedded:
* Python floats are modelled as exact fractions (`Frac`, an integer
  numerator over a positive natural denominator, kept unnormalized so that
  every operation is kernel-computable); IEEE rounding of the underlying
  doubles is outside the model, `inf`/`nan` literals are likewise outside
  the numeric fragment.
* CSV rows (Python dicts produced by `csv.DictReader`) are association
  lists from column name to cell string.
* Fallible Python code (raising exceptions) is embedded in `Option`.
* Network and filesystem effects are represented by their observable
  outcomes (HTTP response summaries, saved file names, printed warnings).
-/

/-! ## Exact fractions standing in for Python floats -/

/-- An unnormalized fraction `num / den`.  All operations below keep `den`
positive, and no gcd normalization is performed, so that concrete runs
reduce inside the kernel. -/
structure Frac where
  num : Int
  den : Nat
deriving DecidableEq, Repr

/-- Embed an integer. -/
def Frac.ofInt (n : Int) : Frac := ⟨n, 1⟩

/-- Addition of fractions. -/
def Frac.add (a b : Frac) : Frac := ⟨a.num * b.den + b.num * a.den, a.den * b.den⟩

/-- Subtraction of fractions, modelling Python float subtraction. -/
def Frac.sub (a b : Frac) : Frac := ⟨a.num * b.den - b.num * a.den, a.den * b.den⟩

/-- Multiplication of fractions, modelling Python float multiplication. -/
def Frac.mul (a b : Frac) : Frac := ⟨a.num * b.num, a.den * b.den⟩

/-- Absolute value. -/
def Frac.abs (a : Frac) : Frac := ⟨|a.num|, a.den⟩

/-- Exact division; the divisor's sign is moved into the numerator so the
denominator stays positive.  Callers guard against a zero divisor exactly
where the Python code does (`ZeroDivisionError` paths are `Option`). -/
def Frac.divQ (a b : Frac) : Frac :=
  if b.num < 0 then ⟨-(a.num * b.den), a.den * b.num.natAbs⟩
  else ⟨a.num * b.den, a.den * b.num.natAbs⟩

/-- The Python comparison `a < b` on floats. -/
def Frac.blt (a b : Frac) : Bool := a.num * (b.den : Int) < b.num * (a.den : Int)

/-- The Python comparison `a == 0` on floats (denominators are positive). -/
def Frac.isZero (a : Frac) : Bool := a.num = 0

/-- The rational number denoted by a fraction. -/
def Frac.toRat (a : Frac) : ℚ := (a.num : ℚ) / (a.den : ℚ)

/-- Floor of a fraction (denominator positive), via integer euclidean
division. -/
def Frac.floorI (a : Frac) : Int := a.num / (a.den : Int)

/-- Round a fraction to the nearest integer, ties to even: the rounding
CPython's fixed-point float formatting performs on the exact value. -/
def Frac.roundHalfEven (a : Frac) : Int :=
  let fl := a.floorI
  let rem2 : Int := 2 * (a.num - fl * a.den)
  if rem2 < (a.den : Int) then fl
  else if (a.den : Int) < rem2 then fl + 1
  else if fl % 2 = 0 then fl else fl + 1

/-- Round a rational to the nearest integer, ties to even (spec-level
counterpart of `Frac.roundHalfEven`). -/
def roundHalfEvenQ (q : ℚ) : ℤ :=
  let fl := ⌊q⌋
  if q - fl < 1 / 2 then fl
  else if (1 / 2 : ℚ) < q - fl then fl + 1
  else if fl % 2 = 0 then fl else fl + 1

/-- Two decimal digits, zero padded. -/
def padTwo (n : Nat) : String :=
  String.mk [Nat.digitChar (n / 10 % 10), Nat.digitChar (n % 10)]

/-- The Python f-string conversion `f"{x:.2f}"` on the exact value:
sign, integer part, and exactly two fractional digits obtained by
round-half-even at the second decimal. -/
def formatFixed2 (a : Frac) : String :=
  let sgn := if a.num < 0 then "-" else ""
  let n := ((a.abs.mul (Frac.ofInt 100)).roundHalfEven).toNat
  sgn ++ toString (n / 100) ++ "." ++ padTwo (n % 100)

/-- Rendering of a rational to exactly two decimal places (the spec's
"formatted to 2 decimals"), stated directly on `ℚ`. -/
def specRender2dp (q : ℚ) : String :=
  let n := (roundHalfEvenQ (|q| * 100)).toNat
  (if q < 0 then "-" else "") ++ toString (n / 100) ++ "." ++ padTwo (n % 100)

/-! ## Python `float(str)` on plain decimal literals -/

/-- Numeric value of a digit string. -/
def digitsToNat (l : List Char) : Nat :=
  l.foldl (fun acc c => acc * 10 + (c.toNat - 48)) 0

/-- Strip leading and trailing whitespace (Python `float` ignores it). -/
def trimChars (l : List Char) : List Char :=
  ((l.dropWhile Char.isWhitespace).reverse.dropWhile Char.isWhitespace).reverse

/-- Parse an unsigned decimal mantissa `digits[.digits]`; at least one
digit must be present, as for Python `float`. -/
def parseDecimal (l : List Char) : Option Frac :=
  let p := l.span Char.isDigit
  match p.2 with
  | [] => if p.1.isEmpty then none else some (Frac.ofInt (digitsToNat p.1))
  | '.' :: rest =>
    let q := rest.span Char.isDigit
    if q.2.isEmpty && !(p.1.isEmpty && q.1.isEmpty) then
      some ⟨digitsToNat (p.1 ++ q.1), 10 ^ q.1.length⟩
    else none
  | _ => none

/-- Parse an optionally signed decimal mantissa. -/
def parseMantissa (l : List Char) : Option Frac :=
  match l with
  | '+' :: r => parseDecimal r
  | '-' :: r => (parseDecimal r).map (fun f => ⟨-f.num, f.den⟩)
  | _ => parseDecimal l

/-- Parse an optionally signed exponent (digits only). -/
def parseExponent (l : List Char) : Option Int :=
  match l with
  | '+' :: r => if r.isEmpty || !r.all Char.isDigit then none else some (digitsToNat r)
  | '-' :: r => if r.isEmpty || !r.all Char.isDigit then none else some (-(digitsToNat r : Int))
  | r => if r.isEmpty || !r.all Char.isDigit then none else some (digitsToNat r)

/-- Split at the first `e`/`E`, if any. -/
def splitExp : List Char → Option (List Char × List Char)
  | [] => none
  | c :: r =>
    if c = 'e' || c = 'E' then some ([], r)
    else match splitExp r with
      | none => none
      | some p => some (c :: p.1, p.2)

/-- Scale a fraction by `10 ^ e`. -/
def applyExp (f : Frac) (e : Int) : Frac :=
  if 0 ≤ e then ⟨f.num * 10 ^ e.toNat, f.den⟩ else ⟨f.num, f.den * 10 ^ (-e).toNat⟩

/-- The Python conversion `float(s)` on the plain decimal fragment
(optional sign, digits with optional point, optional exponent, surrounding
whitespace).  `none` models a raised `ValueError`; the special literals
`inf`/`nan` and underscore separators are outside the numeric model. -/
def parseFloat (s : String) : Option Frac :=
  let l := trimChars s.data
  match splitExp l with
  | none => parseMantissa l
  | some p => do
    let m ← parseMantissa p.1
    let e ← parseExponent p.2
    pure (applyExp m e)

/-! ## compare_performance.py -/

/-- A CSV row as produced by `csv.DictReader`: column name to cell text. -/
abbrev Row := List (String × String)

/-- Python `row.get(k, d)`. -/
def rowGet (r : Row) (k d : String) : String :=
  match r.find? (fun p => p.1 = k) with
  | some p => p.2
  | none => d

/-- Python `row['Name']`; `none` models the `KeyError` raised when the
column is absent. -/
def rowName? (r : Row) : Option String :=
  (r.find? (fun p => p.1 = "Name")).map (fun p => p.2)

/-- `calculate_percentage_change` (compare_performance.py, lines 22-34):
percentage change from non-calcite to calcite, two decimals and a `%`
suffix, with `"N/A"` on a zero baseline or an unparsable value. -/
def calculate_percentage_change (calcite_val non_calcite_val : String) : String :=
  match parseFloat calcite_val, parseFloat non_calcite_val with
  | some c, some n =>
    if n.isZero then "N/A"
    else formatFixed2 (((c.sub n).divQ n).mul (Frac.ofInt 100)) ++ "%"
  | _, _ => "N/A"

/-- Python float division with the `ZeroDivisionError` case as `none`. -/
def pydiv (a b : Frac) : Option Frac :=
  if b.num = 0 then none else some (a.divQ b)

/-- The winner determination of `compare_performance` (lines 172-184):
label and improvement string from the two parsed averages. -/
def betterAndImprovement (ca na : Frac) : Option (String × String) :=
  if ca.blt na then
    (pydiv (na.sub ca) na).map
      (fun d => ("Calcite", formatFixed2 (d.mul (Frac.ofInt 100)) ++ "% faster"))
  else if na.blt ca then
    (pydiv (ca.sub na) ca).map
      (fun d => ("Non-Calcite", formatFixed2 (d.mul (Frac.ofInt 100)) ++ "% faster"))
  else some ("Equal", "Same performance")

/-- One comparison row (the dict built at lines 172-258).  `none` models
the uncaught `ValueError` from `float(...)` on a non-numeric
`Average Response Time` and the `ZeroDivisionError` of the improvement
expression.  The `PPL Query` column is modelled in its
no-query-directory state, where `read_ppl_query` returns `"N/A"`. -/
def compareRow (q : String) (c n : Row) : Option Row := do
  let ca ← parseFloat (rowGet c "Average Response Time" "0")
  let na ← parseFloat (rowGet n "Average Response Time" "0")
  let bi ← betterAndImprovement ca na
  pure [("Query Name", q),
        ("PPL Query", "N/A"),
        ("Better Performance", bi.1),
        ("Performance Improvement", bi.2),
        ("Calcite Request Count", rowGet c "Request Count" "N/A"),
        ("Non-Calcite Request Count", rowGet n "Request Count" "N/A"),
        ("Calcite Median (ms)", rowGet c "Median Response Time" "N/A"),
        ("Non-Calcite Median (ms)", rowGet n "Median Response Time" "N/A"),
        ("Median Change", calculate_percentage_change
          (rowGet c "Median Response Time" "0") (rowGet n "Median Response Time" "0")),
        ("Calcite Average (ms)", rowGet c "Average Response Time" "N/A"),
        ("Non-Calcite Average (ms)", rowGet n "Average Response Time" "N/A"),
        ("Average Change", calculate_percentage_change
          (rowGet c "Average Response Time" "0") (rowGet n "Average Response Time" "0")),
        ("Calcite Min (ms)", rowGet c "Min Response Time" "N/A"),
        ("Non-Calcite Min (ms)", rowGet n "Min Response Time" "N/A"),
        ("Min Change", calculate_percentage_change
          (rowGet c "Min Response Time" "0") (rowGet n "Min Response Time" "0")),
        ("Calcite Max (ms)", rowGet c "Max Response Time" "N/A"),
        ("Non-Calcite Max (ms)", rowGet n "Max Response Time" "N/A"),
        ("Max Change", calculate_percentage_change
          (rowGet c "Max Response Time" "0") (rowGet n "Max Response Time" "0")),
        ("Calcite 95% (ms)", rowGet c "95%" "N/A"),
        ("Non-Calcite 95% (ms)", rowGet n "95%" "N/A"),
        ("95% Change", calculate_percentage_change
          (rowGet c "95%" "0") (rowGet n "95%" "0")),
        ("Calcite 99% (ms)", rowGet c "99%" "N/A"),
        ("Non-Calcite 99% (ms)", rowGet n "99%" "N/A"),
        ("99% Change", calculate_percentage_change
          (rowGet c "99%" "0") (rowGet n "99%" "0")),
        ("Calcite Requests/s", rowGet c "Requests/s" "N/A"),
        ("Non-Calcite Requests/s", rowGet n "Requests/s" "N/A"),
        ("Requests/s Change", calculate_percentage_change
          (rowGet c "Requests/s" "0") (rowGet n "Requests/s" "0")),
        ("Calcite Failures", rowGet c "Failure Count" "N/A"),
        ("Non-Calcite Failures", rowGet n "Failure Count" "N/A")]

/-- The `Name` values of a table (`{row['Name'] for row in data}`);
`none` models a `KeyError` during map construction. -/
def namesOf? : List Row → Option (List String)
  | [] => some []
  | r :: rest =>
    match rowName? r, namesOf? rest with
    | some n, some ns => some (n :: ns)
    | _, _ => none

/-- The `Name` keys of a table, as a total function. -/
def tableNames (data : List Row) : List String := data.filterMap rowName?

/-- Lookup in the dict `{row['Name']: row for row in data}`: later rows
override earlier ones. -/
def lookupName : List Row → String → Option Row
  | [], _ => none
  | r :: rest, q =>
    match lookupName rest q with
    | some x => some x
    | none => if rowName? r = some q then some r else none

/-- Code-point lexicographic comparison (the string order Python's
`sorted` uses), structurally on the character lists. -/
def charListLe : List Char → List Char → Bool
  | [], _ => true
  | _ :: _, [] => false
  | a :: as, b :: bs =>
    if a.toNat < b.toNat then true
    else if b.toNat < a.toNat then false
    else charListLe as bs

/-- Stable insertion into an ascending list of strings. -/
def insertSorted (a : String) : List String → List String
  | [] => [a]
  | b :: r => if charListLe a.data b.data then a :: b :: r else b :: insertSorted a r

/-- Ascending sort of strings (Python `sorted` on distinct keys). -/
def sortStrings (l : List String) : List String := l.foldr insertSorted []

/-- First-occurrence deduplication (Python `set(...)` up to order, which
the subsequent sort makes irrelevant). -/
def dedupFirst : List String → List String
  | [] => []
  | a :: r => a :: (dedupFirst r).filter (fun b => !(b == a))

/-- `sorted(set(list(calcite) + list(non_calcite)))` at line 163. -/
def sortedQueries (cnames nnames : List String) : List String :=
  sortStrings (dedupFirst (cnames ++ nnames))

/-- The comparison loop (lines 165-260): a query present on one side only
is skipped, a matched pair contributes one output row; `none` propagates a
raised exception. -/
def compareAll (cdata ndata : List Row) : List String → Option (List Row)
  | [] => some []
  | q :: qs =>
    match lookupName cdata q, lookupName ndata q with
    | some c, some n => do
      let r ← compareRow q c n
      let rest ← compareAll cdata ndata qs
      pure (r :: rest)
    | _, _ => compareAll cdata ndata qs

/-- The comparison result rows of `compare_performance` for two input
tables (lines 155-260). -/
def compare_rows (cdata ndata : List Row) : Option (List Row) := do
  let cnames ← namesOf? cdata
  let nnames ← namesOf? ndata
  compareAll cdata ndata (sortedQueries cnames nnames)

/-- The `Query Name` cells of an output table. -/
def queryNames (rows : List Row) : List String :=
  rows.map (fun r => rowGet r "Query Name" "")

/-! ### The command-line entry point of compare_performance.py -/

/-- Observable outcome of `main()` (lines 329-405). -/
inductive CliOutcome where
  | exitCode (c : Nat)
  | uncaught (excName : String)
  | interactive
deriving DecidableEq, Repr

/-- `main()` on a full `sys.argv` (script name included), with the
filesystem abstracted by an existence predicate.  With two or three
positional arguments the tool takes the non-interactive branch; that
branch never assigns `log_type`, so line 405 (`ppl_type=log_type`) raises
`UnboundLocalError` before `compare_performance` is reached. -/
def mainArgs (argv : List String) (fileExists : String → Bool) : CliOutcome :=
  if 3 ≤ argv.length then
    if !fileExists (argv.getD 1 "") then .exitCode 1
    else if !fileExists (argv.getD 2 "") then .exitCode 1
    else .uncaught "UnboundLocalError"
  else .interactive

/-- The process exit code (lines 408-416): exceptions escaping `main`
are caught at top level and turned into exit code 1.  `none` is the
interactive mode, outside the non-interactive contract. -/
def scriptExit (argv : List String) (fileExists : String → Bool) : Option Nat :=
  match mainArgs argv fileExists with
  | .exitCode c => some c
  | .uncaught _ => some 1
  | .interactive => none

/-! ## visualize_performance.py -/

/-- File saved by `create_median_comparison`. -/
def median_comparison_files : List String := ["median_comparison.png"]

/-- File saved by `create_performance_improvement`. -/
def performance_improvement_files : List String := ["performance_improvement.png"]

/-- Files saved by `create_percentile_comparison`. -/
def percentile_comparison_files : List String := ["p95_comparison.png", "p99_comparison.png"]

/-- File saved by `create_winner_summary`. -/
def winner_summary_files : List String := ["winner_summary.png"]

/-- File that `create_requests_per_second_comparison` (lines 241-277)
would save; the function is defined in the module. -/
def requests_per_second_files : List String := ["requests_per_second.png"]

/-- Files saved by `create_aggregated_summary`, which returns early
without saving when the aggregated sub-table is empty. -/
def aggregated_summary_files (numAggregatedRows : Nat) : List String :=
  if numAggregatedRows = 0 then [] else ["aggregated_summary.png"]

/-- The image files one run of `create_all_visualizations` (lines
362-387) saves, in call order, as a function of the number of
`Aggregated` rows in the input table. -/
def create_all_visualizations (numAggregatedRows : Nat) : List String :=
  median_comparison_files ++ performance_improvement_files ++
    percentile_comparison_files ++ winner_summary_files ++
    aggregated_summary_files numAggregatedRows

/-! ## data_generation/ingest_big5_data.py -/

/-- One line of the bulk-ingestion data file, classified by its
`json.loads` outcome: blank (skipped before parsing), invalid JSON
(`json.JSONDecodeError`), or a valid document. -/
inductive IngestLine where
  | blank
  | invalid
  | valid
deriving DecidableEq, Repr

/-- The line-processing loop of `main` (lines 67-98), observed as the
document count (`total_docs`) and the line numbers of the printed
invalid-JSON warnings.  Batch submission affects only the separate
success counters and is not part of the per-line control flow. -/
def ingestScan : List IngestLine → Nat → Nat × List Nat
  | [], _ => (0, [])
  | IngestLine.blank :: rest, i => ingestScan rest (i + 1)
  | IngestLine.invalid :: rest, i =>
    let p := ingestScan rest (i + 1)
    (p.1, i :: p.2)
  | IngestLine.valid :: rest, i =>
    let p := ingestScan rest (i + 1)
    (p.1 + 1, p.2)

/-! ## The turbo generators (vpc_flow_turbo.py, networkfirewall_turbo.py) -/

/-- A Python value as far as truthiness is concerned (containers are
abstracted to their length). -/
inductive PyVal where
  | pyNone
  | pyBool (b : Bool)
  | pyInt (n : Int)
  | pyStr (s : String)
  | pyList (len : Nat)
  | pyDict (len : Nat)
deriving DecidableEq, Repr

/-- Python truthiness. -/
def pyTruthy : PyVal → Bool
  | .pyNone => false
  | .pyBool b => b
  | .pyInt n => !(n = 0 : Bool)
  | .pyStr s => !(s = "" : Bool)
  | .pyList n => !(n = 0 : Bool)
  | .pyDict n => !(n = 0 : Bool)

/-- Python `d.get(k, default)` on a JSON object. -/
def dictGet (d : List (String × PyVal)) (k : String) (dflt : PyVal) : PyVal :=
  match d.find? (fun p => p.1 = k) with
  | some p => p.2
  | none => dflt

/-- Outcome of the bulk HTTP submission, as observed by `bulk_index`:
either the request raised (timeout, connection error, ...), or a response
arrived with a status code and a body whose JSON object is `some` dict
(`none` models a body on which `response.json()` raises). -/
inductive BulkOutcome where
  | raised
  | resp (status : Nat) (body : Option (List (String × PyVal)))
deriving DecidableEq, Repr

/-- `bulk_index` of both generators (vpc_flow_turbo.py lines 78-121,
networkfirewall_turbo.py lines 107-136): `True` only for a 200/201
response whose parsed body has no truthy `errors` field; every exception
is caught and yields `False`. -/
def bulk_index (o : BulkOutcome) : Bool :=
  match o with
  | .raised => false
  | .resp status body =>
    if !(status = 200 || status = 201) then false
    else match body with
      | none => false
      | some d => if pyTruthy (dictGet d "errors" (PyVal.pyBool false)) then false else true

/-- Result of one worker thread: documents indexed, failed batches, and
batches executed before returning. -/
structure WorkerRun where
  succ : Nat
  fail : Nat
  batches : Nat
deriving DecidableEq, Repr

/-- The retry loop of the vpc-flow worker (lines 132-148): up to
`retriesLeft` calls of `bulk_index`, whose successive outcomes are
`attempt k`, `attempt (k+1)`, ...; returns success, calls consumed and
the backoff sleeps in milliseconds (`0.2 * 2 ** retry` seconds). -/
def vpcTry (attempt : Nat → Bool) : Nat → Nat → Nat → Bool × Nat × List Nat
  | _, 0, _ => (false, 0, [])
  | k, r + 1, i =>
    if attempt k then (true, 1, [])
    else
      let rest := vpcTry attempt (k + 1) r (i + 1)
      (rest.1, rest.2.1 + 1, (200 * 2 ^ i) :: rest.2.2)

/-- The batch loop of the vpc-flow worker (lines 123-162): 3 submission
attempts per batch with backoff, a consecutive-failure counter reset on
success, and an early stop once it exceeds 5. -/
def vpcWorkerGo (attempt : Nat → Bool) (batchSize : Nat) :
    Nat → Nat → Nat → Nat → Nat → WorkerRun
  | 0, _, succ, fail, _ => ⟨succ, fail, 0⟩
  | n + 1, k, succ, fail, consec =>
    let t := vpcTry attempt k 3 0
    if t.1 then
      let r := vpcWorkerGo attempt batchSize n (k + t.2.1) (succ + batchSize) fail 0
      ⟨r.succ, r.fail, r.batches + 1⟩
    else if consec + 1 > 5 then ⟨succ, fail + 1, 1⟩
    else
      let r := vpcWorkerGo attempt batchSize n (k + t.2.1) succ (fail + 1) (consec + 1)
      ⟨r.succ, r.fail, r.batches + 1⟩

/-- `worker` of vpc_flow_turbo.py on a stream of bulk outcomes. -/
def vpcWorker (attempt : Nat → Bool) (batchSize numBatches : Nat) : WorkerRun :=
  vpcWorkerGo attempt batchSize numBatches 0 0 0 0

/-- The batch loop of the network-firewall worker (lines 138-156): a
single submission per batch, no retry and no backoff, a cumulative
failure counter that is never reset, and an early stop once it
exceeds 10. -/
def nfwWorkerGo (attempt : Nat → Bool) (batchSize : Nat) :
    Nat → Nat → Nat → Nat → WorkerRun
  | 0, _, succ, fail => ⟨succ, fail, 0⟩
  | n + 1, k, succ, fail =>
    if attempt k then
      let r := nfwWorkerGo attempt batchSize n (k + 1) (succ + batchSize) fail
      ⟨r.succ, r.fail, r.batches + 1⟩
    else if fail + 1 > 10 then ⟨succ, fail + 1, 1⟩
    else
      let r := nfwWorkerGo attempt batchSize n (k + 1) succ (fail + 1)
      ⟨r.succ, r.fail, r.batches + 1⟩

/-- `worker` of networkfirewall_turbo.py on a stream of bulk outcomes. -/
def nfwWorker (attempt : Nat → Bool) (batchSize numBatches : Nat) : WorkerRun :=
  nfwWorkerGo attempt batchSize numBatches 0 0 0

/-! ### Environment-variable gates of the generators' `main` -/

/-- The four `os.getenv` results read by a generator's `main`. -/
structure GenEnv where
  endpoint : Option String
  user : Option String
  password : Option String
  index : Option String
deriving DecidableEq, Repr

/-- Python truthiness of an `os.getenv` result (`None` and the empty
string are falsy). -/
def envSet : Option String → Bool
  | none => false
  | some s => !(s = "" : Bool)

/-- What a generator's `main` does before any network activity: print the
usage text (which names the listed variables) and return, or proceed to
construct the generator and submit bulk requests. -/
inductive GenOutcome where
  | usageExit (mentioned : List String)
  | proceedNetwork
deriving DecidableEq, Repr

/-- Variables named by the vpc-flow usage message (lines 172-176). -/
def vpcUsageVars : List String :=
  ["OPENSEARCH_ENDPOINT", "INDEX_NAME", "OPENSEARCH_USER", "OPENSEARCH_PASSWORD"]

/-- The configuration gate of vpc_flow_turbo.py `main` (lines 164-191):
`OPENSEARCH_ENDPOINT` and `INDEX_NAME` are required; all network calls
are on the `proceedNetwork` path. -/
def vpcMainGate (e : GenEnv) : GenOutcome :=
  if !envSet e.endpoint || !envSet e.index then .usageExit vpcUsageVars
  else .proceedNetwork

/-- Variables named by the network-firewall usage message (lines 166-176). -/
def nfwUsageVars : List String :=
  ["OPENSEARCH_ENDPOINT", "OPENSEARCH_USER", "OPENSEARCH_PASSWORD", "INDEX_NAME"]

/-- The configuration gate of networkfirewall_turbo.py `main` (lines
158-176): all four variables are required. -/
def nfwMainGate (e : GenEnv) : GenOutcome :=
  if !(envSet e.endpoint && envSet e.user && envSet e.password && envSet e.index) then
    .usageExit nfwUsageVars
  else .proceedNetwork

/-! ### Concrete inputs used by the witnesses and counterexamples -/

/-- Calcite row of the C4 scenario. -/
def c4cal : Row :=
  [("Name", "q1"), ("Median Response Time", "10"), ("Average Response Time", "12")]

/-- Non-calcite row of the C4 scenario. -/
def c4non : Row :=
  [("Name", "q1"), ("Median Response Time", "20"), ("Average Response Time", "15")]

/-- Calcite table with queries q1, q2. -/
def c3cal : List Row :=
  [[("Name", "q1"), ("Average Response Time", "1")],
   [("Name", "q2"), ("Average Response Time", "2")]]

/-- Non-calcite table with queries q2, q3. -/
def c3non : List Row :=
  [[("Name", "q2"), ("Average Response Time", "3")],
   [("Name", "q3"), ("Average Response Time", "4")]]

/-- Matched pair with a non-numeric median but numeric averages. -/
def c7okCal : Row :=
  [("Name", "q1"), ("Median Response Time", "oops"), ("Average Response Time", "5")]

/-- Non-calcite side for the non-numeric-median pair. -/
def c7okNon : Row :=
  [("Name", "q1"), ("Median Response Time", "7"), ("Average Response Time", "6")]

/-- Matched pair whose calcite `Average Response Time` is non-numeric. -/
def c7badCal : Row := [("Name", "q1"), ("Average Response Time", "abc")]

/-- Non-calcite side for the non-numeric-average pair. -/
def c7badNon : Row := [("Name", "q1"), ("Average Response Time", "5")]

/-- Bulk-outcome stream: the first call fails, every later call
succeeds. -/
def failThenOk (k : Nat) : Bool := decide (1 ≤ k)

/-- Bulk-outcome stream alternating failure and success, starting with a
failure; no two consecutive calls fail. -/
def altOutcome (k : Nat) : Bool := decide (k % 2 = 1)

/-- Bulk-outcome stream on which the vpc-flow worker's batches alternate
failure (three failed calls) and success. -/
def period4Ok (k : Nat) : Bool := decide (k % 4 = 3)

/-! ## Bridge lemmas between `Frac` and `ℚ` -/

theorem Frac.den_cast_pos {a : Frac} (ha : 0 < a.den) : (0 : ℚ) < (a.den : ℚ) := by
  exact_mod_cast ha

theorem Frac.den_cast_ne {a : Frac} (ha : 0 < a.den) : ((a.den : ℚ)) ≠ 0 :=
  (Frac.den_cast_pos ha).ne'

theorem Frac.toRat_zero_iff (a : Frac) (ha : 0 < a.den) : a.toRat = 0 ↔ a.num = 0 := by
  simp [Frac.toRat, div_eq_zero_iff, Frac.den_cast_ne ha]

theorem Frac.blt_iff (a b : Frac) (ha : 0 < a.den) (hb : 0 < b.den) :
    a.blt b = true ↔ a.toRat < b.toRat := by
  rw [Frac.blt, decide_eq_true_eq, Frac.toRat, Frac.toRat,
    div_lt_div_iff₀ (Frac.den_cast_pos ha) (Frac.den_cast_pos hb)]
  constructor <;> intro h <;> exact_mod_cast h

theorem Frac.toRat_sub (a b : Frac) (ha : 0 < a.den) (hb : 0 < b.den) :
    (a.sub b).toRat = a.toRat - b.toRat := by
  rw [Frac.sub, Frac.toRat, Frac.toRat, Frac.toRat]
  have h1 := Frac.den_cast_ne ha
  have h2 := Frac.den_cast_ne hb
  push_cast
  field_simp
  ring

theorem Frac.toRat_mul (a b : Frac) (ha : 0 < a.den) (hb : 0 < b.den) :
    (a.mul b).toRat = a.toRat * b.toRat := by
  rw [Frac.mul, Frac.toRat, Frac.toRat, Frac.toRat]
  have h1 := Frac.den_cast_ne ha
  have h2 := Frac.den_cast_ne hb
  push_cast
  field_simp

theorem Frac.toRat_abs (a : Frac) (ha : 0 < a.den) : a.abs.toRat = |a.toRat| := by
  rw [Frac.abs, Frac.toRat, Frac.toRat, abs_div,
    abs_of_nonneg (show (0 : ℚ) ≤ (a.den : ℚ) by positivity)]
  congr 1
  exact Int.cast_abs

theorem Frac.toRat_divQ (a b : Frac) (ha : 0 < a.den) (hb : 0 < b.den)
    (hnb : b.num ≠ 0) : (a.divQ b).toRat = a.toRat / b.toRat := by
  have h1 := Frac.den_cast_ne ha
  have h2 := Frac.den_cast_ne hb
  have h3 : ((b.num : ℚ)) ≠ 0 := by exact_mod_cast hnb
  rw [Frac.divQ]
  by_cases hs : b.num < 0
  · rw [if_pos hs, Frac.toRat, Frac.toRat, Frac.toRat]
    have h4 : ((b.num.natAbs : ℕ) : ℚ) = -(b.num : ℚ) := by
      rw [Int.cast_natAbs]
      exact_mod_cast abs_of_neg hs
    push_cast
    rw [h4]
    field_simp
  · rw [if_neg hs, Frac.toRat, Frac.toRat, Frac.toRat]
    have h4 : ((b.num.natAbs : ℕ) : ℚ) = (b.num : ℚ) := by
      rw [Int.cast_natAbs]
      exact_mod_cast abs_of_nonneg (not_lt.mp hs)
    push_cast
    rw [h4]
    field_simp

theorem Frac.toRat_neg_iff (a : Frac) (ha : 0 < a.den) : a.toRat < 0 ↔ a.num < 0 := by
  rw [Frac.toRat, div_neg_iff]
  have hd := Frac.den_cast_pos ha
  constructor
  · rintro (⟨-, h⟩ | ⟨h, -⟩)
    · exact absurd hd (asymm h)
    · exact_mod_cast h
  · intro h
    exact Or.inr ⟨by exact_mod_cast h, hd⟩

theorem Frac.den_sub_pos {a b : Frac} (ha : 0 < a.den) (hb : 0 < b.den) :
    0 < (a.sub b).den := Nat.mul_pos ha hb

theorem Frac.den_mul_pos {a b : Frac} (ha : 0 < a.den) (hb : 0 < b.den) :
    0 < (a.mul b).den := Nat.mul_pos ha hb

theorem Frac.den_abs_pos {a : Frac} (ha : 0 < a.den) : 0 < a.abs.den := ha

theorem Frac.den_ofInt_pos (n : Int) : 0 < (Frac.ofInt n).den := Nat.one_pos

theorem Frac.den_divQ_pos {a b : Frac} (ha : 0 < a.den) (hnb : b.num ≠ 0) :
    0 < (a.divQ b).den := by
  have h : 0 < b.num.natAbs := Int.natAbs_pos.mpr hnb
  rw [Frac.divQ]
  by_cases hs : b.num < 0
  · rw [if_pos hs]
    exact Nat.mul_pos ha h
  · rw [if_neg hs]
    exact Nat.mul_pos ha h

theorem parseDecimal_denPos {l : List Char} {f : Frac} (h : parseDecimal l = some f) :
    0 < f.den := by
  rw [parseDecimal] at h
  split at h
  · split at h
    · exact absurd h (by simp)
    · cases h
      exact Nat.one_pos
  · simp only [] at h
    split at h
    · cases h
      exact pow_pos (by decide) _
    · exact absurd h (by simp)
  · exact absurd h (by simp)

theorem parseMantissa_denPos {l : List Char} {f : Frac} (h : parseMantissa l = some f) :
    0 < f.den := by
  rw [parseMantissa.eq_def] at h
  split at h
  · exact parseDecimal_denPos h
  · rcases Option.map_eq_some'.mp h with ⟨g, hg, hf⟩
    cases hf
    have hden := parseDecimal_denPos hg
    exact hden
  · exact parseDecimal_denPos h

theorem applyExp_denPos {f : Frac} {e : Int} (hf : 0 < f.den) :
    0 < (applyExp f e).den := by
  rw [applyExp]
  split
  · exact hf
  · exact Nat.mul_pos hf (pow_pos (by decide) _)

theorem parseFloat_denPos {s : String} {f : Frac} (h : parseFloat s = some f) :
    0 < f.den := by
  rw [parseFloat] at h
  split at h
  · exact parseMantissa_denPos h
  · rcases Option.bind_eq_some.mp h with ⟨m, hm, h2⟩
    rcases Option.bind_eq_some.mp h2 with ⟨e, he, h3⟩
    cases Option.some_inj.mp h3
    exact applyExp_denPos (parseMantissa_denPos hm)

theorem Frac.floorI_eq (a : Frac) : a.floorI = ⌊a.toRat⌋ :=
  (Rat.floor_intCast_div_natCast a.num a.den).symm

theorem Frac.roundHalfEven_eq (a : Frac) (ha : 0 < a.den) :
    a.roundHalfEven = roundHalfEvenQ a.toRat := by
  have hd : (0 : ℚ) < (a.den : ℚ) := Frac.den_cast_pos ha
  have hfl : a.floorI = ⌊a.toRat⌋ := Frac.floorI_eq a
  have key : a.toRat - (⌊a.toRat⌋ : ℚ) =
      ((a.num - ⌊a.toRat⌋ * a.den : ℤ) : ℚ) / (a.den : ℚ) := by
    rw [Frac.toRat]
    push_cast
    field_simp
    ring
  have castlt : ∀ x y : ℤ, (x < y) ↔ ((x : ℚ) < (y : ℚ)) := fun x y => Int.cast_lt.symm
  have h1 : (2 * (a.num - ⌊a.toRat⌋ * a.den) < (a.den : ℤ)) ↔
      (a.toRat - (⌊a.toRat⌋ : ℚ) < 1 / 2) := by
    rw [key, div_lt_div_iff₀ hd (by norm_num : (0 : ℚ) < 2),
      castlt (2 * (a.num - ⌊a.toRat⌋ * a.den)) (a.den : ℤ)]
    push_cast
    constructor <;> intro h <;> linarith
  have h2 : ((a.den : ℤ) < 2 * (a.num - ⌊a.toRat⌋ * a.den)) ↔
      ((1 : ℚ) / 2 < a.toRat - (⌊a.toRat⌋ : ℚ)) := by
    rw [key, div_lt_div_iff₀ (by norm_num : (0 : ℚ) < 2) hd,
      castlt ((a.den : ℤ)) (2 * (a.num - ⌊a.toRat⌋ * a.den))]
    push_cast
    constructor <;> intro h <;> linarith
  unfold Frac.roundHalfEven roundHalfEvenQ
  simp only []
  rw [hfl]
  by_cases hc1 : a.toRat - (⌊a.toRat⌋ : ℚ) < 1 / 2
  · rw [if_pos (h1.mpr hc1), if_pos hc1]
  · rw [if_neg (fun h => hc1 (h1.mp h)), if_neg hc1]
    by_cases hc2 : (1 : ℚ) / 2 < a.toRat - (⌊a.toRat⌋ : ℚ)
    · rw [if_pos (h2.mpr hc2), if_pos hc2]
    · rw [if_neg (fun h => hc2 (h2.mp h)), if_neg hc2]

theorem formatFixed2_eq (a : Frac) (ha : 0 < a.den) :
    formatFixed2 a = specRender2dp a.toRat := by
  have habs : (a.abs.mul (Frac.ofInt 100)).toRat = |a.toRat| * 100 := by
    rw [Frac.toRat_mul _ _ (Frac.den_abs_pos ha) (Frac.den_ofInt_pos 100),
      Frac.toRat_abs a ha]
    congr 1
    rw [Frac.ofInt, Frac.toRat]
    norm_num
  have hround : (a.abs.mul (Frac.ofInt 100)).roundHalfEven =
      roundHalfEvenQ (|a.toRat| * 100) := by
    rw [Frac.roundHalfEven_eq _
      (Frac.den_mul_pos (Frac.den_abs_pos ha) (Frac.den_ofInt_pos 100)), habs]
  unfold formatFixed2 specRender2dp
  simp only []
  rw [hround]
  by_cases hs : a.num < 0
  · rw [if_pos hs, if_pos ((Frac.toRat_neg_iff a ha).mpr hs)]
  · rw [if_neg hs, if_neg (fun hq => hs ((Frac.toRat_neg_iff a ha).mp hq))]

/-! ## Claim theorems -/

/-- C1: for every pair of input strings, if both parse as numbers and the
baseline is non-zero, `calculate_percentage_change` returns
`(a − b) / b × 100` rendered to exactly two decimal places with a `%`
suffix; if the baseline parses to zero or either input does not parse,
it returns `"N/A"`.  The embedding is a total function, so no exception
escapes on any input. -/
theorem percentage_change_c1 (a b : String) :
    (∀ x y : Frac, parseFloat a = some x → parseFloat b = some y → y.toRat ≠ 0 →
      calculate_percentage_change a b =
        specRender2dp ((x.toRat - y.toRat) / y.toRat * 100) ++ "%")
    ∧ (∀ y : Frac, parseFloat b = some y → y.toRat = 0 →
        calculate_percentage_change a b = "N/A")
    ∧ (parseFloat a = none → calculate_percentage_change a b = "N/A")
    ∧ (parseFloat b = none → calculate_percentage_change a b = "N/A") := by
  refine ⟨?_, ?_, ?_, ?_⟩
  · intro x y hx hy hy0
    have hdx := parseFloat_denPos hx
    have hdy := parseFloat_denPos hy
    have hny : y.num ≠ 0 := fun h => hy0 ((Frac.toRat_zero_iff y hdy).mpr h)
    simp only [calculate_percentage_change, hx, hy]
    have hz : ¬(y.isZero = true) := by simp [Frac.isZero, hny]
    rw [if_neg hz]
    congr 1
    have hd1 : 0 < (x.sub y).den := Frac.den_sub_pos hdx hdy
    have hd2 : 0 < ((x.sub y).divQ y).den := Frac.den_divQ_pos hd1 hny
    have hd3 : 0 < (((x.sub y).divQ y).mul (Frac.ofInt 100)).den :=
      Frac.den_mul_pos hd2 (Frac.den_ofInt_pos 100)
    rw [formatFixed2_eq _ hd3]
    congr 1
    rw [Frac.toRat_mul _ _ hd2 (Frac.den_ofInt_pos 100),
      Frac.toRat_divQ _ _ hd1 hdy hny, Frac.toRat_sub _ _ hdx hdy]
    congr 1
    rw [Frac.ofInt, Frac.toRat]
    norm_num
  · intro y hy hy0
    have hdy := parseFloat_denPos hy
    have hz : y.isZero = true := by
      simp [Frac.isZero, (Frac.toRat_zero_iff y hdy).mp hy0]
    cases hx : parseFloat a with
    | none => simp only [calculate_percentage_change, hx, hy]
    | some x =>
      simp only [calculate_percentage_change, hx, hy]
      rw [if_pos hz]
  · intro h
    cases hb : parseFloat b with
    | none => simp only [calculate_percentage_change, h, hb]
    | some y => simp only [calculate_percentage_change, h, hb]
  · intro h
    cases ha : parseFloat a with
    | none => simp only [calculate_percentage_change, ha, h]
    | some x => simp only [calculate_percentage_change, ha, h]

/-- Witness for C1 at the inputs `("12", "15")`, `("1", "0")` and
`("x", "3")`. -/
theorem percentage_change_c1_witness :
    calculate_percentage_change "12" "15" =
      specRender2dp ((Frac.toRat ⟨12, 1⟩ - Frac.toRat ⟨15, 1⟩) / Frac.toRat ⟨15, 1⟩ * 100) ++ "%"
    ∧ calculate_percentage_change "1" "0" = "N/A"
    ∧ calculate_percentage_change "x" "3" = "N/A" :=
  ⟨(percentage_change_c1 "12" "15").1 ⟨12, 1⟩ ⟨15, 1⟩ (by decide) (by decide)
      (by simp [Frac.toRat]),
   (percentage_change_c1 "1" "0").2.1 ⟨0, 1⟩ (by decide) (by simp [Frac.toRat]),
   (percentage_change_c1 "x" "3").2.2.1 (by decide)⟩

/-- C2: for every matched pair whose `Average Response Time` fields parse,
the `Better Performance` cell of the produced comparison row is
`"Calcite"` precisely on the code's strict comparison of the calcite
average below the non-calcite average, `"Non-Calcite"` on the reversed
strict comparison, `"Equal"` otherwise; and those boolean comparisons
coincide with the strict orders and exact equality of the parsed
rational values. -/
theorem winner_label_c2 (q : String) (c n : Row) (x y : Frac) (out : Row)
    (hx : parseFloat (rowGet c "Average Response Time" "0") = some x)
    (hy : parseFloat (rowGet n "Average Response Time" "0") = some y)
    (hout : compareRow q c n = some out) :
    (rowGet out "Better Performance" "" =
      if x.blt y then "Calcite" else if y.blt x then "Non-Calcite" else "Equal")
    ∧ (x.blt y = true ↔ x.toRat < y.toRat)
    ∧ (y.blt x = true ↔ y.toRat < x.toRat)
    ∧ ((x.blt y = false ∧ y.blt x = false) ↔ x.toRat = y.toRat) := by
  have hdx := parseFloat_denPos hx
  have hdy := parseFloat_denPos hy
  have hbxy := Frac.blt_iff x y hdx hdy
  have hbyx := Frac.blt_iff y x hdy hdx
  refine ⟨?_, hbxy, hbyx, ?_⟩
  · simp only [compareRow, hx, hy, Option.bind_eq_bind, Option.some_bind] at hout
    cases hb1 : x.blt y with
    | true =>
      by_cases hny : y.num = 0
      · simp [betterAndImprovement, hb1, pydiv, hny] at hout
      · simp only [betterAndImprovement, hb1, pydiv, hny, if_true, if_false,
          Bool.false_eq_true, ite_false, ite_true, Option.map_some', Option.some_bind] at hout
        cases hout
        simp [rowGet, hb1]
    | false =>
      cases hb2 : y.blt x with
      | true =>
        by_cases hnx : x.num = 0
        · simp [betterAndImprovement, hb1, hb2, pydiv, hnx] at hout
        · simp only [betterAndImprovement, hb1, hb2, pydiv, hnx, if_true, if_false,
            Bool.false_eq_true, ite_false, ite_true, Option.map_some', Option.some_bind] at hout
          cases hout
          simp [rowGet, hb1, hb2]
      | false =>
        simp only [betterAndImprovement, hb1, hb2, Bool.false_eq_true, ite_false,
          Option.some_bind] at hout
        cases hout
        simp [rowGet, hb1, hb2]
  · constructor
    · rintro ⟨hf1, hf2⟩
      have h1 : ¬(x.toRat < y.toRat) := fun h => by simp [hbxy.mpr h] at hf1
      have h2 : ¬(y.toRat < x.toRat) := fun h => by simp [hbyx.mpr h] at hf2
      exact le_antisymm (not_lt.mp h2) (not_lt.mp h1)
    · intro h
      constructor
      · rw [← Bool.not_eq_true]
        intro hb
        exact absurd (hbxy.mp hb) (by rw [h]; exact lt_irrefl _)
      · rw [← Bool.not_eq_true]
        intro hb
        exact absurd (hbyx.mp hb) (by rw [h]; exact lt_irrefl _)

/-- Witness for C2 on the matched pair with averages 12 and 15. -/
theorem winner_label_c2_witness :
    rowGet ((compareRow "q1" c4cal c4non).getD []) "Better Performance" "" =
      (if Frac.blt ⟨12, 1⟩ ⟨15, 1⟩ then "Calcite"
       else if Frac.blt ⟨15, 1⟩ ⟨12, 1⟩ then "Non-Calcite" else "Equal") :=
  (winner_label_c2 "q1" c4cal c4non ⟨12, 1⟩ ⟨15, 1⟩
    ((compareRow "q1" c4cal c4non).getD []) (by decide) (by decide) (by decide)).1

/-! ### Membership lemmas for the join-key analysis -/

theorem mem_insertSorted (a b : String) (l : List String) :
    b ∈ insertSorted a l ↔ b = a ∨ b ∈ l := by
  induction l with
  | nil => simp [insertSorted]
  | cons c r ih =>
    rw [insertSorted]
    split
    · simp
    · rw [List.mem_cons, ih, List.mem_cons]
      tauto

theorem mem_sortStrings (b : String) (l : List String) :
    b ∈ sortStrings l ↔ b ∈ l := by
  induction l with
  | nil => simp [sortStrings]
  | cons a r ih =>
    rw [show sortStrings (a :: r) = insertSorted a (sortStrings r) from rfl,
      mem_insertSorted, ih, List.mem_cons]

theorem mem_dedupFirst (b : String) (l : List String) :
    b ∈ dedupFirst l ↔ b ∈ l := by
  induction l with
  | nil => simp [dedupFirst]
  | cons a r ih =>
    rw [dedupFirst, List.mem_cons, List.mem_cons, ← ih]
    by_cases hb : b = a
    · simp [hb]
    · simp only [hb, false_or]
      rw [List.mem_filter]
      simp [hb]

theorem mem_sortedQueries (b : String) (cn nn : List String) :
    b ∈ sortedQueries cn nn ↔ b ∈ cn ∨ b ∈ nn := by
  rw [sortedQueries, mem_sortStrings, mem_dedupFirst, List.mem_append]

theorem namesOf?_eq {data : List Row} {ns : List String}
    (h : namesOf? data = some ns) : ns = tableNames data := by
  induction data generalizing ns with
  | nil =>
    rw [namesOf?] at h
    cases h
    rfl
  | cons r rest ih =>
    rw [namesOf?] at h
    cases hr : rowName? r with
    | none => rw [hr] at h; exact absurd h (by simp)
    | some m =>
      rw [hr] at h
      cases hrest : namesOf? rest with
      | none => rw [hrest] at h; exact absurd h (by simp)
      | some ms =>
        rw [hrest] at h
        cases h
        rw [ih hrest]
        simp [tableNames, List.filterMap_cons, hr]

theorem lookupName_isSome {data : List Row} {ns : List String}
    (h : namesOf? data = some ns) (q : String) :
    (lookupName data q).isSome = true ↔ q ∈ ns := by
  induction data generalizing ns with
  | nil =>
    rw [namesOf?] at h
    cases h
    simp [lookupName]
  | cons r rest ih =>
    rw [namesOf?] at h
    cases hr : rowName? r with
    | none => rw [hr] at h; exact absurd h (by simp)
    | some m =>
      rw [hr] at h
      cases hrest : namesOf? rest with
      | none => rw [hrest] at h; exact absurd h (by simp)
      | some ms =>
        rw [hrest] at h
        cases h
        rw [lookupName]
        cases hl : lookupName rest q with
        | some x =>
          have : q ∈ ms := (ih hrest).mp (by rw [hl]; rfl)
          simp [this]
        | none =>
          have hq : q ∉ ms := fun hq => by
            have := (ih hrest).mpr hq
            rw [hl] at this
            exact absurd this (by simp)
          rw [hr]
          by_cases he : m = q
          · simp [he]
          · have hne : ¬(some m = some q) := by simpa using he
            rw [if_neg hne]
            simp [hq, Ne.symm he]


theorem compareRow_queryName {q : String} {c n out : Row}
    (hout : compareRow q c n = some out) : rowGet out "Query Name" "" = q := by
  rw [compareRow] at hout
  rcases Option.bind_eq_some.mp hout with ⟨ca, hca, h2⟩
  rcases Option.bind_eq_some.mp h2 with ⟨na, hna, h3⟩
  rcases Option.bind_eq_some.mp h3 with ⟨bi, hbi, h4⟩
  cases h4
  simp [rowGet]

theorem compareAll_keys (cdata ndata : List Row) (qs : List String) (rows : List Row)
    (h : compareAll cdata ndata qs = some rows) :
    queryNames rows =
      qs.filter (fun q => (lookupName cdata q).isSome && (lookupName ndata q).isSome) := by
  induction qs generalizing rows with
  | nil =>
    rw [compareAll] at h
    cases h
    rfl
  | cons q qs ih =>
    rw [compareAll] at h
    cases hc : lookupName cdata q with
    | none =>
      simp only [hc] at h
      rw [ih _ h]
      simp [List.filter_cons, hc]
    | some c =>
      cases hn : lookupName ndata q with
      | none =>
        simp only [hc, hn] at h
        rw [ih _ h]
        simp [List.filter_cons, hn]
      | some n =>
        simp only [hc, hn] at h
        rcases Option.bind_eq_some.mp h with ⟨r, hr, h2⟩
        rcases Option.bind_eq_some.mp h2 with ⟨rest, hrest, h3⟩
        cases h3
        rw [queryNames, List.map_cons, compareRow_queryName hr]
        have hq := ih _ hrest
        rw [queryNames] at hq
        rw [hq]
        simp [List.filter_cons, hc, hn]

theorem compare_keys {cdata ndata rows : List Row}
    (h : compare_rows cdata ndata = some rows) (q : String) :
    q ∈ queryNames rows ↔ q ∈ tableNames cdata ∧ q ∈ tableNames ndata := by
  rw [compare_rows] at h
  rcases Option.bind_eq_some.mp h with ⟨cn, hcn, h2⟩
  rcases Option.bind_eq_some.mp h2 with ⟨nn, hnn, h3⟩
  rw [compareAll_keys _ _ _ _ h3]
  simp only [List.mem_filter, mem_sortedQueries, Bool.and_eq_true,
    lookupName_isSome hcn, lookupName_isSome hnn,
    namesOf?_eq hcn, namesOf?_eq hnn]
  tauto

/-- C3: whenever the comparison completes, the set of `Query Name` keys
of the output equals the intersection of the two inputs' `Name` key sets;
swapping the two inputs yields the same key set; and a query present in
only one input produces no output row. -/
theorem join_keys_c3 (cdata ndata rows : List Row)
    (h : compare_rows cdata ndata = some rows) :
    (∀ q, q ∈ queryNames rows ↔ q ∈ tableNames cdata ∧ q ∈ tableNames ndata)
    ∧ (∀ rows2, compare_rows ndata cdata = some rows2 →
        ∀ q, (q ∈ queryNames rows ↔ q ∈ queryNames rows2))
    ∧ (∀ q, q ∈ tableNames cdata → q ∉ tableNames ndata → q ∉ queryNames rows) := by
  refine ⟨compare_keys h, ?_, ?_⟩
  · intro rows2 h2 q
    rw [compare_keys h q, compare_keys h2 q]
    tauto
  · intro q hc hn hq
    exact hn ((compare_keys h q).mp hq).2

/-- Witness for C3 on two concrete tables with name sets {q1, q2} and
{q2, q3}. -/
theorem join_keys_c3_witness :
    "q2" ∈ queryNames ((compare_rows c3cal c3non).getD []) ↔
      ("q2" ∈ tableNames c3cal ∧ "q2" ∈ tableNames c3non) :=
  (join_keys_c3 c3cal c3non ((compare_rows c3cal c3non).getD []) (by decide)).1 "q2"

/-- C4: the concrete matched pair with calcite median 10 / average 12 and
non-calcite median 20 / average 15 yields median change `"-50.00%"`,
winner `"Calcite"`, and improvement `"20.00% faster"` (relative to the
slower, non-calcite average). -/
theorem scenario_c4 :
    (compare_rows [c4cal] [c4non]).map (fun rows => rows.map (fun r =>
      (rowGet r "Median Change" "", rowGet r "Better Performance" "",
        rowGet r "Performance Improvement" ""))) =
      some [("-50.00%", "Calcite", "20.00% faster")] := by decide

/-- C5 evidence: in the non-interactive branch (two or three positional
arguments), `main` raises `UnboundLocalError` on `log_type` before the
comparison runs, so the process exits with code 1 even when both input
files exist; a missing input file also exits 1.  Exit code 0 is
unreachable in this mode. -/
theorem cli_crash_c5 :
    mainArgs ["compare_performance.py", "calcite.csv", "non_calcite.csv"] (fun _ => true) =
      CliOutcome.uncaught "UnboundLocalError"
    ∧ scriptExit ["compare_performance.py", "calcite.csv", "non_calcite.csv"]
        (fun _ => true) = some 1
    ∧ scriptExit ["compare_performance.py", "calcite.csv", "non_calcite.csv"]
        (fun _ => false) = some 1
    ∧ (∀ fe, scriptExit ["compare_performance.py", "calcite.csv", "non_calcite.csv"] fe
        = some 1) := by
  refine ⟨by decide, by decide, by decide, ?_⟩
  intro fe
  cases h1 : fe "calcite.csv" <;> cases h2 : fe "non_calcite.csv" <;>
    simp [scriptExit, mainArgs, h1, h2]

theorem vpcTry_first (attempt : Nat → Bool) (k : Nat) :
    (vpcTry attempt k 3 0).1 = (attempt k || attempt (k + 1) || attempt (k + 2)) := by
  cases h0 : attempt k <;> cases h1 : attempt (k + 1) <;> cases h2 : attempt (k + 2) <;>
    simp [vpcTry, h0, h1, h2]

theorem vpcTry_allFail (attempt : Nat → Bool) (k : Nat)
    (h0 : attempt k = false) (h1 : attempt (k + 1) = false)
    (h2 : attempt (k + 2) = false) :
    vpcTry attempt k 3 0 = (false, 3, [200, 400, 800]) := by
  simp [vpcTry, h0, h1, h2]

theorem vpcWorkerGo_allFail (bs : Nat) :
    ∀ n k succ fail consec : Nat, consec ≤ 5 → 6 - consec ≤ n →
      vpcWorkerGo (fun _ => false) bs n k succ fail consec =
        ⟨succ, fail + (6 - consec), 6 - consec⟩ := by
  intro n
  induction n with
  | zero => intro k succ fail consec hc hn; omega
  | succ m ih =>
    intro k succ fail consec hc hn
    have ht : vpcTry (fun _ => false) k 3 0 = (false, 3, [200, 400, 800]) :=
      vpcTry_allFail _ _ rfl rfl rfl
    simp only [vpcWorkerGo, ht, Bool.false_eq_true, if_false]
    by_cases h5 : consec = 5
    · subst h5
      rw [if_pos (by omega)]
    · rw [if_neg (by omega)]
      have hih := ih (k + 3) succ (fail + 1) (consec + 1) (by omega) (by omega)
      rw [hih]
      simp only []
      congr 1 <;> omega

theorem nfwWorkerGo_allFail (bs : Nat) :
    ∀ n k succ fail : Nat, fail ≤ 10 → 11 - fail ≤ n →
      nfwWorkerGo (fun _ => false) bs n k succ fail =
        ⟨succ, 11, 11 - fail⟩ := by
  intro n
  induction n with
  | zero => intro k succ fail hf hn; omega
  | succ m ih =>
    intro k succ fail hf hn
    simp only [nfwWorkerGo, Bool.false_eq_true, if_false]
    by_cases h10 : fail = 10
    · subst h10
      rw [if_pos (by omega)]
    · rw [if_neg (by omega)]
      have hih := ih (k + 1) succ (fail + 1) (by omega) (by omega)
      rw [hih]
      simp only []
      congr 1
      omega

/-- C6 counterexample: the network-firewall worker.  On a stream whose
first call fails and all later calls succeed, the vpc-flow worker retries
and indexes the batch, while the network-firewall worker performs no
retry and counts the batch failed; on an alternating stream with no two
consecutive failed calls it still stops early after its 11th total failed
batch (21 of 30 batches run), which a consecutive-failure counter reset
on success would never do. -/
theorem worker_retry_c6_counterexample :
    (nfwWorker failThenOk 1000 1 = ⟨0, 1, 1⟩
      ∧ vpcWorker failThenOk 1000 1 = ⟨1000, 0, 1⟩)
    ∧ (nfwWorker altOutcome 1 30 = ⟨10, 11, 21⟩
      ∧ ((List.range 60).all (fun k => altOutcome k || altOutcome (k + 1))) = true) := by
  decide

/-- C6 as amended: the vpc-flow worker gives each batch up to 3
submission attempts with backoff sleeps 0.2 s, 0.4 s, 0.8 s (here in
milliseconds), counts the batch failed only when all three fail, resets
its consecutive-failure counter on success, and stops early after the 6th
consecutive failed batch, returning the partial counts; the
network-firewall worker makes a single attempt per batch with no retry or
backoff, never resets its cumulative failure counter, and stops early on
its 11th total failed batch. -/
theorem workers_c6_amended :
    (∀ attempt : Nat → Bool, ∀ k,
      (vpcTry attempt k 3 0).1 = (attempt k || attempt (k + 1) || attempt (k + 2)))
    ∧ (∀ attempt : Nat → Bool, ∀ k, attempt k = false → attempt (k + 1) = false →
        attempt (k + 2) = false → vpcTry attempt k 3 0 = (false, 3, [200, 400, 800]))
    ∧ (∀ bs n, 6 ≤ n → vpcWorker (fun _ => false) bs n = ⟨0, 6, 6⟩)
    ∧ vpcWorker period4Ok 1 20 = ⟨10, 10, 20⟩
    ∧ (∀ bs n, 11 ≤ n → nfwWorker (fun _ => false) bs n = ⟨0, 11, 11⟩)
    ∧ nfwWorker altOutcome 1 30 = ⟨10, 11, 21⟩ := by
  refine ⟨vpcTry_first, vpcTry_allFail, ?_, by decide, ?_, by decide⟩
  · intro bs n hn
    rw [vpcWorker, vpcWorkerGo_allFail bs n 0 0 0 0 (by omega) (by omega)]
  · intro bs n hn
    rw [nfwWorker, nfwWorkerGo_allFail bs n 0 0 0 (by omega) (by omega)]

/-- Witness for the amended C6 at concrete batch counts. -/
theorem workers_c6_amended_witness :
    vpcWorker (fun _ => false) 1000 7 = ⟨0, 6, 6⟩
    ∧ nfwWorker (fun _ => false) 1000 12 = ⟨0, 11, 11⟩
    ∧ vpcTry (fun _ => false) 5 3 0 = (false, 3, [200, 400, 800]) :=
  ⟨workers_c6_amended.2.2.1 1000 7 (by decide),
   workers_c6_amended.2.2.2.2.1 1000 12 (by decide),
   workers_c6_amended.2.1 (fun _ => false) 5 rfl rfl rfl⟩

/-- C7 counterexample: a matched pair whose calcite
`Average Response Time` is non-numeric makes the comparison raise
(uncaught `ValueError` at the `float` call), so no output table is
produced at all. -/
theorem nonnumeric_average_c7_counterexample :
    compare_rows [c7badCal] [c7badNon] = none := by decide

theorem ingestScan_fst (l : List IngestLine) : ∀ i j : Nat,
    (ingestScan l i).1 = (ingestScan l j).1 := by
  induction l with
  | nil => intro i j; rfl
  | cons c rest ih =>
    intro i j
    cases c <;> simp only [ingestScan] <;> rw [ih (i + 1) (j + 1)]

/-- C7 as amended: an invalid JSON line in the bulk-ingestion data file
is skipped with a warning naming its line number and does not change the
document count, and the scan always runs to completion; in the
comparison, a non-numeric value in a metric column other than
`Average Response Time` yields an `"N/A"` change cell and the run still
produces its output table, but a non-numeric `Average Response Time` in a
matched row aborts the comparison with no output. -/
theorem malformed_input_c7_amended :
    (∀ l1 l2 : List IngestLine, ∀ i : Nat,
      (ingestScan (l1 ++ IngestLine.invalid :: l2) i).1 = (ingestScan (l1 ++ l2) i).1
      ∧ (i + l1.length) ∈ (ingestScan (l1 ++ IngestLine.invalid :: l2) i).2)
    ∧ ((compare_rows [c7okCal] [c7okNon]).map
        (fun rows => rows.map (fun r => rowGet r "Median Change" "")) = some ["N/A"])
    ∧ compare_rows [[("Name", "q1"), ("Average Response Time", "na")]]
        [[("Name", "q1"), ("Average Response Time", "1")]] = none := by
  refine ⟨?_, by decide, by decide⟩
  intro l1
  induction l1 with
  | nil =>
    intro l2 i
    constructor
    · simp only [List.nil_append, ingestScan]
      exact ingestScan_fst l2 (i + 1) i
    · simp [ingestScan]
  | cons c l1 ih =>
    intro l2 i
    have harith : i + (c :: l1).length = (i + 1) + l1.length := by
      simp [List.length_cons]
      omega
    cases c with
    | blank =>
      refine ⟨?_, ?_⟩
      · simp only [List.cons_append, ingestScan]
        exact (ih l2 (i + 1)).1
      · rw [harith]
        simp only [List.cons_append, ingestScan]
        exact (ih l2 (i + 1)).2
    | invalid =>
      refine ⟨?_, ?_⟩
      · simp only [List.cons_append, ingestScan]
        exact (ih l2 (i + 1)).1
      · rw [harith]
        simp only [List.cons_append, ingestScan]
        exact List.mem_cons_of_mem _ ((ih l2 (i + 1)).2)
    | valid =>
      refine ⟨?_, ?_⟩
      · simp only [List.cons_append, ingestScan]
        exact congrArg (fun t => t + 1) (ih l2 (i + 1)).1
      · rw [harith]
        simp only [List.cons_append, ingestScan]
        exact (ih l2 (i + 1)).2

/-- C8: with any required environment variable missing (unset or empty)
— `OPENSEARCH_ENDPOINT` or `INDEX_NAME` for the vpc-flow generator, any
of the four for the network-firewall generator — `main` stops at its
configuration gate, printing the usage text that names every listed
variable, and never reaches the network path. -/
theorem env_gate_c8 (e : GenEnv) :
    (envSet e.endpoint = false ∨ envSet e.index = false →
      vpcMainGate e = GenOutcome.usageExit vpcUsageVars
      ∧ vpcMainGate e ≠ GenOutcome.proceedNetwork)
    ∧ ((envSet e.endpoint = false ∨ envSet e.user = false ∨ envSet e.password = false
        ∨ envSet e.index = false) →
      nfwMainGate e = GenOutcome.usageExit nfwUsageVars
      ∧ nfwMainGate e ≠ GenOutcome.proceedNetwork)
    ∧ ("OPENSEARCH_ENDPOINT" ∈ vpcUsageVars ∧ "INDEX_NAME" ∈ vpcUsageVars)
    ∧ ("OPENSEARCH_ENDPOINT" ∈ nfwUsageVars ∧ "OPENSEARCH_USER" ∈ nfwUsageVars
       ∧ "OPENSEARCH_PASSWORD" ∈ nfwUsageVars ∧ "INDEX_NAME" ∈ nfwUsageVars) := by
  refine ⟨?_, ?_, by decide, by decide⟩
  · intro h
    have hc : (!envSet e.endpoint || !envSet e.index) = true := by
      rcases h with h | h <;> simp [h]
    rw [vpcMainGate, if_pos hc]
    exact ⟨rfl, by simp⟩
  · intro h
    have hc : (!(envSet e.endpoint && envSet e.user && envSet e.password
        && envSet e.index)) = true := by
      rcases h with h | h | h | h <;> simp [h]
    rw [nfwMainGate, if_pos hc]
    exact ⟨rfl, by simp⟩

/-- Witness for C8 with `OPENSEARCH_ENDPOINT` unset and the other
variables present. -/
theorem env_gate_c8_witness :
    vpcMainGate ⟨none, some "admin", some "pw", some "idx"⟩ =
      GenOutcome.usageExit vpcUsageVars
    ∧ nfwMainGate ⟨none, some "admin", some "pw", some "idx"⟩ =
      GenOutcome.usageExit nfwUsageVars :=
  ⟨((env_gate_c8 ⟨none, some "admin", some "pw", some "idx"⟩).1 (Or.inl rfl)).1,
   ((env_gate_c8 ⟨none, some "admin", some "pw", some "idx"⟩).2.1 (Or.inl rfl)).1⟩

/-- C9 counterexample: one visualization run never saves the
requests-per-second (throughput) chart, although the function that would
draw it is defined in the module. -/
theorem viz_throughput_c9_counterexample :
    (create_all_visualizations 1).contains "requests_per_second.png" = false
    ∧ requests_per_second_files.contains "requests_per_second.png" = true := by decide

/-- C9 as amended: a run saves exactly the median, improvement, p95, p99
and winner-summary charts, plus the aggregated summary figure when the
input table has an `Aggregated` row — and never the requests-per-second
chart, whose drawing function is defined but not invoked by
`create_all_visualizations`. -/
theorem viz_files_c9_amended (numAggregatedRows : Nat) :
    create_all_visualizations numAggregatedRows =
      ["median_comparison.png", "performance_improvement.png", "p95_comparison.png",
        "p99_comparison.png", "winner_summary.png"] ++
        (if numAggregatedRows = 0 then [] else ["aggregated_summary.png"])
    ∧ (create_all_visualizations numAggregatedRows).contains "requests_per_second.png"
        = false := by
  cases numAggregatedRows with
  | zero => exact ⟨by decide, by decide⟩
  | succ m =>
    refine ⟨?_, ?_⟩
    · simp [create_all_visualizations, median_comparison_files,
        performance_improvement_files, percentile_comparison_files,
        winner_summary_files, aggregated_summary_files]
    · simp [create_all_visualizations, median_comparison_files,
        performance_improvement_files, percentile_comparison_files,
        winner_summary_files, aggregated_summary_files]

/-- C10: `bulk_index` is total over its error cases with a boolean
result — it returns `True` exactly when an HTTP response arrived with
status 200 or 201 and a JSON body whose `errors` entry is absent or
falsy; any other status, a truthy `errors` entry, an unparsable body, or
a raised exception yields `False`. -/
theorem bulk_index_c10 (o : BulkOutcome) :
    bulk_index o = true ↔
      ∃ s d, o = BulkOutcome.resp s (some d) ∧ (s = 200 ∨ s = 201)
        ∧ pyTruthy (dictGet d "errors" (PyVal.pyBool false)) = false := by
  cases o with
  | raised => simp [bulk_index]
  | resp s body =>
    cases body with
    | none =>
      simp only [bulk_index]
      constructor
      · intro h
        split at h <;> simp at h
      · rintro ⟨s', d', heq, -, -⟩
        simp at heq
    | some d =>
      by_cases hs : s = 200 ∨ s = 201
      · have hb : (!(s = 200 || s = 201)) = false := by
          rcases hs with h | h <;> simp [h]
        cases ht : pyTruthy (dictGet d "errors" (PyVal.pyBool false)) with
        | true =>
          simp only [bulk_index, hb, Bool.false_eq_true, if_false, ht, if_true]
          constructor
          · intro h
            exact absurd h (by simp)
          · rintro ⟨s', d', heq, -, ht'⟩
            rcases (by simpa using heq : s = s' ∧ d = d') with ⟨rfl, rfl⟩
            rw [ht] at ht'
            exact absurd ht' (by simp)
        | false =>
          simp only [bulk_index, hb, Bool.false_eq_true, if_false, ht]
          constructor
          · intro _
            exact ⟨s, d, rfl, hs, ht⟩
          · intro _
            trivial
      · have hb : (!(s = 200 || s = 201)) = true := by
          rcases not_or.mp hs with ⟨h1, h2⟩
          simp [h1, h2]
        simp only [bulk_index, hb, if_true]
        constructor
        · intro h
          exact absurd h (by simp)
        · rintro ⟨s', d', heq, hs', -⟩
          rcases (by simpa using heq : s = s' ∧ d = d') with ⟨rfl, rfl⟩
          exact absurd hs' hs
